import Mathlib

/-!
Verification of the Simuhire live voice-call core (`ClientCallModal` and
`geminiService`): PCM codec round-trip, playback scheduling, transcript
assembly, and call lifecycle / resource cleanup.  Times and audio samples
are modelled as exact rationals; machine int16 conversion is modelled with
explicit truncation and wrap-around modulo 2^16.
-/

namespace Simuhire

/-! ## Playback Scheduler

Embeds the audio-chunk branch of the `onmessage` callback:

    nextStartTime = Math.max(nextStartTime, outputAudioContext.currentTime);
    ...
    source.start(nextStartTime);
    nextStartTime = nextStartTime + audioBuffer.duration;

A chunk is modelled as a pair `(arrival, duration)`: `arrival` is the value
of `currentTime` when the chunk is processed, `duration` the decoded buffer
duration.  `scheduleAll` returns, for each chunk, the `(start, end)` pair
the scheduler assigns to it. -/

/-- One scheduling step: the cursor update and start-time computation of
lines 115/121/122 of the modal. -/
def schedStep (cursor : ℚ) (chunk : ℚ × ℚ) : ℚ × ℚ :=
  let start := max cursor chunk.1
  (start, start + chunk.2)

/-- Run the scheduler over a sequence of chunks, threading the playback
cursor (`nextStartTime`); yields each chunk `(start, end)`. -/
def scheduleAll (cursor : ℚ) : List (ℚ × ℚ) → List (ℚ × ℚ)
  | [] => []
  | chunk :: rest =>
    let s := schedStep cursor chunk
    s :: scheduleAll s.2 rest

/-- The value of the playback cursor after processing a list of chunks. -/
def cursorAfter (cursor : ℚ) : List (ℚ × ℚ) → ℚ
  | [] => cursor
  | chunk :: rest => cursorAfter (schedStep cursor chunk).2 rest

/-- Machine epsilon of IEEE-754 double precision, the "floating-point
epsilon" of the spec gap bound. -/
def fpEps : ℚ := 1 / 2 ^ 52

theorem scheduleAll_length (c : ℚ) (l : List (ℚ × ℚ)) :
    (scheduleAll c l).length = l.length := by
  induction l generalizing c with
  | nil => rfl
  | cons a t ih => simp [scheduleAll, ih]

theorem scheduleAll_getElem? (c : ℚ) (l : List (ℚ × ℚ)) (i : ℕ) (chunk : ℚ × ℚ)
    (h : l[i]? = some chunk) :
    (scheduleAll c l)[i]? =
      some (max (cursorAfter c (l.take i)) chunk.1,
            max (cursorAfter c (l.take i)) chunk.1 + chunk.2) := by
  induction l generalizing c i with
  | nil => simp at h
  | cons a t ih =>
    cases i with
    | zero =>
      simp at h
      subst h
      simp [scheduleAll, schedStep, cursorAfter]
    | succ n =>
      simp at h
      simpa [scheduleAll, schedStep, cursorAfter] using ih (schedStep c a).2 n h

theorem cursorAfter_take_succ (c : ℚ) (l : List (ℚ × ℚ)) (i : ℕ) (chunk : ℚ × ℚ)
    (h : l[i]? = some chunk) :
    cursorAfter c (l.take (i + 1)) =
      max (cursorAfter c (l.take i)) chunk.1 + chunk.2 := by
  induction l generalizing c i with
  | nil => simp at h
  | cons a t ih =>
    cases i with
    | zero =>
      simp at h
      subst h
      simp [cursorAfter, schedStep]
    | succ n =>
      simp at h
      simpa [cursorAfter, schedStep] using ih (schedStep c a).2 n h

/-- The claim that the gap between consecutive scheduled chunks never
exceeds floating-point epsilon, for chunks arriving at arbitrary times. -/
def gapNeverExceedsEps : Prop :=
  ∀ (c : ℚ) (l : List (ℚ × ℚ)), (∀ p ∈ l, 0 ≤ p.1 ∧ 0 ≤ p.2) →
    ∀ (i : ℕ) (si sj : ℚ × ℚ),
      (scheduleAll c l)[i]? = some si → (scheduleAll c l)[i + 1]? = some sj →
      sj.1 - si.2 ≤ fpEps

/-- Claim C1 counterexample: a chunk of duration 1 processed at clock time 0
followed by a chunk processed at clock time 100 leaves a 99-second silence
between the end of the first chunk and the start of the second, far above
floating-point epsilon.  The unconditional gap bound of the claim is false. -/
theorem playback_gap_claim_false : ¬ gapNeverExceedsEps := by
  intro hcl
  have h := hcl 0 [(0, 1), (100, 1)] (by norm_num) 0 (0, 1) (100, 101)
    (by norm_num [scheduleAll, schedStep]) (by norm_num [scheduleAll, schedStep])
  norm_num [fpEps] at h

/-- Claim C1 (amended): chunk `i+1` never starts before chunk `i` ends, and
whenever chunk `i+1` is processed at an audio-clock time no later than chunk
`i` ends, it starts exactly where chunk `i` ends (gap zero, hence
within floating-point epsilon).  When it is processed after the end of chunk `i`,
the code starts it at the processing-time clock value, so the gap equals the
arrival delay and is not bounded by epsilon. -/
theorem playback_no_overlap (c : ℚ) (l : List (ℚ × ℚ)) (i : ℕ)
    (ci cj si sj : ℚ × ℚ)
    (hci : l[i]? = some ci) (hcj : l[i + 1]? = some cj)
    (hsi : (scheduleAll c l)[i]? = some si)
    (hsj : (scheduleAll c l)[i + 1]? = some sj) :
    si.2 ≤ sj.1 ∧ (cj.1 ≤ si.2 → sj.1 = si.2) := by
  have hi := scheduleAll_getElem? c l i ci hci
  have hj := scheduleAll_getElem? c l (i + 1) cj hcj
  rw [hsi] at hi
  rw [hsj] at hj
  obtain rfl := Option.some.inj hi
  obtain rfl := Option.some.inj hj
  rw [cursorAfter_take_succ c l i ci hci]
  exact ⟨le_max_left _ _, fun h => max_eq_left h⟩

/-- Witness for C1 at cursor 0 and chunks `[(0, 2), (1, 3)]`: the second
chunk arrives at time 1, before the first ends at time 2, and is scheduled
to start exactly at time 2. -/
theorem playback_no_overlap_witness :
    (((0 : ℚ), (2 : ℚ))).2 ≤ (((2 : ℚ), (5 : ℚ))).1 ∧
      ((((1 : ℚ), (3 : ℚ))).1 ≤ (((0 : ℚ), (2 : ℚ))).2 →
        (((2 : ℚ), (5 : ℚ))).1 = (((0 : ℚ), (2 : ℚ))).2) :=
  playback_no_overlap 0 [(0, 2), (1, 3)] 0 (0, 2) (1, 3) (0, 2) (2, 5)
    (by norm_num) (by norm_num)
    (by norm_num [scheduleAll, schedStep]) (by norm_num [scheduleAll, schedStep])

/-- Claim C2: the playback cursor (`nextStartTime`) never decreases across
chunk-scheduling operations, and every scheduled start time equals
`max(cursor, currentTime)`, hence is at least the audio-clock time at the
moment of scheduling. -/
theorem playback_cursor_monotone (c : ℚ) (l : List (ℚ × ℚ))
    (hd : ∀ p ∈ l, 0 ≤ p.2) :
    (∀ (i : ℕ) (chunk : ℚ × ℚ), l[i]? = some chunk →
        cursorAfter c (l.take i) ≤ cursorAfter c (l.take (i + 1)))
    ∧ (∀ (i : ℕ) (chunk s : ℚ × ℚ), l[i]? = some chunk →
        (scheduleAll c l)[i]? = some s →
        s.1 = max (cursorAfter c (l.take i)) chunk.1 ∧ chunk.1 ≤ s.1) := by
  constructor
  · intro i chunk h
    rw [cursorAfter_take_succ c l i chunk h]
    have hmem : chunk ∈ l := List.getElem?_mem h
    have hd2 := hd chunk hmem
    have hle := le_max_left (cursorAfter c (l.take i)) chunk.1
    linarith
  · intro i chunk s h hs
    have hi := scheduleAll_getElem? c l i chunk h
    rw [hs] at hi
    obtain rfl := Option.some.inj hi
    exact ⟨rfl, le_max_right _ _⟩

/-- Witness for C2 at cursor 0 and the single chunk `(5, 1)`: the cursor
rises from 0 to 6, and the chunk starts at `max 0 5 = 5 ≥ 5`. -/
theorem playback_cursor_monotone_witness :
    cursorAfter 0 ([(((5 : ℚ), (1 : ℚ)))].take 0) ≤
        cursorAfter 0 ([(((5 : ℚ), (1 : ℚ)))].take 1)
    ∧ ((((5 : ℚ), (6 : ℚ))).1 =
          max (cursorAfter 0 ([(((5 : ℚ), (1 : ℚ)))].take 0)) (((5 : ℚ), (1 : ℚ))).1
        ∧ (((5 : ℚ), (1 : ℚ))).1 ≤ (((5 : ℚ), (6 : ℚ))).1) :=
  ⟨(playback_cursor_monotone 0 [(5, 1)] (by norm_num)).1 0 (5, 1) (by norm_num),
   (playback_cursor_monotone 0 [(5, 1)] (by norm_num)).2 0 (5, 1) (5, 6)
     (by norm_num) (by norm_num [scheduleAll, schedStep])⟩

/-! ## PCM Codec

Embeds the sample-level float-to-int16 conversion of `createBlob`
(`int16[i] = data[i] * 32768`, an `Int16Array` store, i.e. truncation
toward zero followed by wrap-around into the signed 16-bit range) and the
inverse conversion of `decodeAudioData`
(`channelData[i] = dataInt16[i] / 32768.0`). -/

/-- JavaScript ToIntegerOrInfinity on a finite number: truncation toward
zero. -/
def jsTrunc (y : ℚ) : ℤ := if 0 ≤ y then ⌊y⌋ else ⌈y⌉

/-- JavaScript ToInt16, as performed by an `Int16Array` element store:
reduce modulo 2^16 into `[0, 65536)`, then map `[32768, 65536)` down to
the negative half. -/
def toInt16 (n : ℤ) : ℤ :=
  let m := n % 65536
  if m < 32768 then m else m - 65536

/-- One sample of `createBlob`: `int16[i] = data[i] * 32768`. -/
def encodeSample (x : ℚ) : ℤ := toInt16 (jsTrunc (x * 32768))

/-- One sample of `decodeAudioData`: `channelData[i] = dataInt16[i] / 32768.0`. -/
def decodeSample (v : ℤ) : ℚ := (v : ℚ) / 32768

theorem toInt16_eq_self (n : ℤ) (h1 : -32768 ≤ n) (h2 : n < 32768) :
    toInt16 n = n := by
  simp only [toInt16]
  split <;> omega

theorem jsTrunc_near (y : ℚ) : |(jsTrunc y : ℚ) - y| ≤ 1 := by
  rw [jsTrunc]
  rcases le_or_lt 0 y with h | h
  · rw [if_pos h, abs_le]
    constructor
    · have := Int.lt_floor_add_one y
      linarith
    · have := Int.floor_le y
      linarith
  · rw [if_neg (not_le.mpr h), abs_le]
    constructor
    · have := Int.le_ceil y
      linarith
    · have := Int.ceil_lt_add_one y
      linarith

theorem jsTrunc_mem_range (y : ℚ) (h1 : -32768 ≤ y) (h2 : y < 32768) :
    -32768 ≤ jsTrunc y ∧ jsTrunc y < 32768 := by
  rw [jsTrunc]
  rcases le_or_lt 0 y with h | h
  · rw [if_pos h]
    refine ⟨?_, ?_⟩
    · have h0 : (0 : ℤ) ≤ ⌊y⌋ := Int.floor_nonneg.mpr h
      omega
    · exact Int.floor_lt.mpr (by exact_mod_cast h2)
  · rw [if_neg (not_le.mpr h)]
    refine ⟨?_, ?_⟩
    · have hc := Int.le_ceil y
      have hq : ((-32768 : ℤ) : ℚ) ≤ (⌈y⌉ : ℚ) := by push_cast; linarith
      exact_mod_cast hq
    · have h0 : ⌈y⌉ ≤ 0 := Int.ceil_le.mpr (by exact_mod_cast h.le)
      omega

/-- Claim C3 counterexample: at the in-range sample `x = 1` the encoder
computes `1 * 32768 = 32768`, which the `Int16Array` store wraps to
`-32768`; decoding gives `-1`, an error of `2`, far above `1 / 32768`. -/
theorem codec_roundtrip_fails_at_one :
    ¬ |decodeSample (encodeSample 1) - 1| ≤ 1 / 32768 := by
  have h1 : jsTrunc ((1 : ℚ) * 32768) = 32768 := by
    rw [jsTrunc]
    norm_num
  have h2 : encodeSample 1 = -32768 := by
    rw [encodeSample, h1, toInt16]
    norm_num
  rw [h2, decodeSample]
  norm_num

/-- Claim C3 (amended): for every sample `x` in the half-open interval
`[-1, 1)`, decoding the encoded sample recovers `x` within int16
quantization error: `|decode(encode(x)) - x| ≤ 1 / 32768`.  (At the closed
right endpoint `x = 1` the int16 store wraps to `-32768` and the bound
fails; see the counterexample.) -/
theorem codec_roundtrip (x : ℚ) (h1 : -1 ≤ x) (h2 : x < 1) :
    |decodeSample (encodeSample x) - x| ≤ 1 / 32768 := by
  have hy1 : -32768 ≤ x * 32768 := by nlinarith
  have hy2 : x * 32768 < 32768 := by nlinarith
  obtain ⟨ht1, ht2⟩ := jsTrunc_mem_range (x * 32768) hy1 hy2
  have henc : encodeSample x = jsTrunc (x * 32768) :=
    toInt16_eq_self _ ht1 ht2
  have hnear := jsTrunc_near (x * 32768)
  rw [henc, decodeSample]
  have hrw : (jsTrunc (x * 32768) : ℚ) / 32768 - x =
      ((jsTrunc (x * 32768) : ℚ) - x * 32768) / 32768 := by
    ring
  rw [hrw, abs_div, abs_of_pos (by norm_num : (0 : ℚ) < 32768)]
  linarith [hnear]

/-- Witness for C3 at `x = 1/2`: the round trip is exact. -/
theorem codec_roundtrip_witness :
    |decodeSample (encodeSample (1 / 2 : ℚ)) - 1 / 2| ≤ 1 / 32768 :=
  codec_roundtrip (1 / 2) (by norm_num) (by norm_num)

/-! ## Transcript Assembler

Embeds the transcription part of the `onmessage` callback (lines 126-143):
partial-fragment accumulation into `currentOutputTranscriptionRef` /
`currentInputTranscriptionRef`, and the turn-complete commit into the
`transcript` state.  The author literal `Client` is the AI persona, `You`
is the candidate. -/

inductive Author
  | client
  | you
deriving DecidableEq

/-- The `${t.author}` rendering of an author, as stored in the transcript
state of the modal. -/
def Author.tag : Author → String
  | Author.client => "Client"
  | Author.you => "You"

/-- One transcript entry: `{ author, text }`. -/
structure Entry where
  author : Author
  text : String
deriving DecidableEq

/-- The transcript-relevant component state: committed entries plus the two
partial accumulators. -/
structure TState where
  transcript : List Entry
  inputAcc : String
  outputAcc : String
deriving DecidableEq

/-- An inbound server message, restricted to the transcription fields:
presence of an `outputTranscription` object with its text, presence of an
`inputTranscription` object with its text, and the `turnComplete` flag. -/
structure Msg where
  outputTranscription : Option String
  inputTranscription : Option String
  turnComplete : Bool
deriving DecidableEq

/-- Lines 126-132: `if (outputTranscription) ... else if (inputTranscription) ...`. -/
def applyTranscription (s : TState) (m : Msg) : TState :=
  match m.outputTranscription with
  | some t => { s with outputAcc := s.outputAcc ++ t }
  | none =>
    match m.inputTranscription with
    | some t => { s with inputAcc := s.inputAcc ++ t }
    | none => s

/-- Lines 135-142: commit the non-empty accumulators (candidate first, then
AI) and clear both.  The JS emptiness test is string falsiness. -/
def commitTurn (s : TState) : TState :=
  let s1 := if s.inputAcc = "" then s
            else { s with transcript := s.transcript ++ [⟨Author.you, s.inputAcc⟩] }
  let s2 := if s1.outputAcc = "" then s1
            else { s1 with transcript := s1.transcript ++ [⟨Author.client, s1.outputAcc⟩] }
  { s2 with inputAcc := "", outputAcc := "" }

/-- The transcription part of `onmessage`: fragments are accumulated first,
then the turn-complete commit runs if the message carries the flag. -/
def onMessage (s : TState) (m : Msg) : TState :=
  let s1 := applyTranscription s m
  if m.turnComplete then commitTurn s1 else s1

theorem applyTranscription_transcript (s : TState) (m : Msg) :
    (applyTranscription s m).transcript = s.transcript := by
  rcases m with ⟨mo, mi, tc⟩
  cases mo <;> cases mi <;> rfl

theorem commitTurn_spec (s : TState) :
    (commitTurn s).transcript =
      s.transcript
        ++ (if s.inputAcc = "" then [] else [⟨Author.you, s.inputAcc⟩])
        ++ (if s.outputAcc = "" then [] else [⟨Author.client, s.outputAcc⟩])
    ∧ (commitTurn s).inputAcc = "" ∧ (commitTurn s).outputAcc = "" := by
  by_cases h1 : s.inputAcc = "" <;> by_cases h2 : s.outputAcc = "" <;>
    simp [commitTurn, h1, h2]

/-- Claim C4: on a turn-complete message, the transcript gains a candidate
(`You`) entry holding the candidate accumulator exactly when that
accumulator is non-empty, then an AI (`Client`) entry holding the AI
accumulator exactly when that one is non-empty — in that order — and both
accumulators end empty.  The accumulators include any fragment carried by
the same message, which is appended before the commit. -/
theorem turn_complete_commits (s : TState) (m : Msg) (h : m.turnComplete = true) :
    (onMessage s m).transcript =
      s.transcript
        ++ (if (applyTranscription s m).inputAcc = "" then []
            else [⟨Author.you, (applyTranscription s m).inputAcc⟩])
        ++ (if (applyTranscription s m).outputAcc = "" then []
            else [⟨Author.client, (applyTranscription s m).outputAcc⟩])
    ∧ (onMessage s m).inputAcc = "" ∧ (onMessage s m).outputAcc = "" := by
  have ht := applyTranscription_transcript s m
  have hc := commitTurn_spec (applyTranscription s m)
  rw [ht] at hc
  simpa [onMessage, h] using hc

/-- Witness for C4: accumulator `"Hello"` plus the fragment `" there"` and a
turn-complete marker in one message yield exactly one candidate entry
`"Hello there"` and empty accumulators. -/
theorem turn_complete_commits_witness :
    (onMessage ⟨[], "Hello", ""⟩ ⟨none, some " there", true⟩).transcript =
      ([] : List Entry)
        ++ (if (applyTranscription ⟨[], "Hello", ""⟩ ⟨none, some " there", true⟩).inputAcc = ""
            then []
            else [⟨Author.you,
                   (applyTranscription ⟨[], "Hello", ""⟩ ⟨none, some " there", true⟩).inputAcc⟩])
        ++ (if (applyTranscription ⟨[], "Hello", ""⟩ ⟨none, some " there", true⟩).outputAcc = ""
            then []
            else [⟨Author.client,
                   (applyTranscription ⟨[], "Hello", ""⟩ ⟨none, some " there", true⟩).outputAcc⟩])
    ∧ (onMessage ⟨[], "Hello", ""⟩ ⟨none, some " there", true⟩).inputAcc = ""
    ∧ (onMessage ⟨[], "Hello", ""⟩ ⟨none, some " there", true⟩).outputAcc = "" :=
  turn_complete_commits ⟨[], "Hello", ""⟩ ⟨none, some " there", true⟩ rfl

/-- Claim C5 counterexample: a message carrying both an output fragment
`"a"` and an input fragment `"b"` leaves the candidate accumulator
untouched — the `else if` drops the input fragment — contradicting the
claim that both fragments are appended. -/
theorem input_fragment_dropped_when_both :
    (applyTranscription ⟨[], "", ""⟩ ⟨some "a", some "b", false⟩).inputAcc ≠ "" ++ "b" := by
  decide

/-- Claim C5 (amended): an output-transcription fragment is always appended
to the AI accumulator, but an input-transcription fragment is appended to
the candidate accumulator only when the message carries no
output-transcription fragment; when one message carries both kinds, the
input fragment is dropped.  The committed transcript is untouched. -/
theorem fragment_routing (s : TState) (m : Msg) :
    (applyTranscription s m).outputAcc =
      (match m.outputTranscription with
       | some t => s.outputAcc ++ t
       | none => s.outputAcc)
    ∧ (applyTranscription s m).inputAcc =
      (match m.outputTranscription, m.inputTranscription with
       | none, some t => s.inputAcc ++ t
       | _, _ => s.inputAcc)
    ∧ (applyTranscription s m).transcript = s.transcript := by
  rcases m with ⟨mo, mi, tc⟩
  cases mo <;> cases mi <;> simp [applyTranscription]

/-! ## Call Lifecycle Controller

Embeds the `ClientCallModal` state machine: the `status` state, the
resource refs (`streamRef`, `scriptProcessorRef`, `audioContextRef`,
`outputAudioContextRef`, `sessionPromiseRef`), `startVoiceCall`, the error
callbacks, the Decline button, and `endCall`.  Each platform resource
carries its own state; the `...Count` fields count effective releases
(a transition from acquired to released), so that double-release is the
statement that a count rises by more than one.  `Except` carries the
possibility of a platform exception: closing an already closed
`AudioContext` raises `InvalidStateError`, which the code must guard
against.  `MediaStreamTrack.stop`, `AudioNode.disconnect` and the live
session `close` are idempotent at the platform and never throw. -/

inductive Status
  | ringing
  | connected
  | ended
deriving DecidableEq

inductive TrackState
  | live
  | stopped
deriving DecidableEq

inductive CtxState
  | running
  | closed
deriving DecidableEq

/-- The mutable state of the modal: UI status, transcript, resource refs
(`none` = ref never set), release counters, and the two timers the code
arms with `setTimeout` (`endCall` after an error, `onClose` after cleanup). -/
structure LState where
  status : Status
  transcript : List Entry
  stream : Option TrackState
  procConnected : Option Bool
  inCtx : Option CtxState
  outCtx : Option CtxState
  session : Option Bool
  micStopCount : ℕ
  procDisconnectCount : ℕ
  inCtxCloseCount : ℕ
  outCtxCloseCount : ℕ
  sessionCloseCount : ℕ
  pendingEndDelayMs : Option ℕ
  pendingClose : Option (String × ℕ)
deriving DecidableEq

/-- The state when the modal mounts: ringing, nothing acquired. -/
def initState : LState :=
  { status := Status.ringing, transcript := [], stream := none,
    procConnected := none, inCtx := none, outCtx := none, session := none,
    micStopCount := 0, procDisconnectCount := 0, inCtxCloseCount := 0,
    outCtxCloseCount := 0, sessionCloseCount := 0,
    pendingEndDelayMs := none, pendingClose := none }

/-- `MediaStreamTrack.stop()`: idempotent; yields the new track state and 1
when a live track was actually stopped. -/
def stopTrack : TrackState → TrackState × ℕ
  | TrackState.live => (TrackState.stopped, 1)
  | TrackState.stopped => (TrackState.stopped, 0)

/-- `AudioContext.close()`: raises `InvalidStateError` on an already closed
context, otherwise closes it (one effective release). -/
def closeCtx : CtxState → Except String (CtxState × ℕ)
  | CtxState.closed => Except.error "InvalidStateError"
  | CtxState.running => Except.ok (CtxState.closed, 1)

/-- Lines 33-38: `if (ctx && ctx.state !== closed) ctx.close()`, applied to
one context ref; yields the new ref and the number of effective closes. -/
def closeCtxGuarded (c : Option CtxState) : Except String (Option CtxState × ℕ) :=
  match c with
  | none => Except.ok (none, 0)
  | some st =>
    if st = CtxState.closed then Except.ok (some st, 0)
    else
      match closeCtx st with
      | Except.ok r => Except.ok (some r.1, r.2)
      | Except.error e => Except.error e

/-- Line 41: `transcript.map(t => author + ": " + text).join(newline)`. -/
def serializeTranscript (ts : List Entry) : String :=
  String.intercalate "\n" (ts.map fun t => Author.tag t.author ++ ": " ++ t.text)

/-- `endCall` (lines 25-43): set status to ended; stop the microphone
tracks if the stream ref is set; disconnect the processor if its ref is
set; close each audio context if set and not already closed; request the
session close (idempotent); then compute the serialized transcript and arm
the `onClose` timer with a 1500 ms delay. -/
def endCall (s : LState) : Except String LState :=
  let s1 :=
    match s.stream with
    | some tr =>
      { s with status := Status.ended, stream := some (stopTrack tr).1,
               micStopCount := s.micStopCount + (stopTrack tr).2 }
    | none => { s with status := Status.ended }
  let s2 :=
    match s1.procConnected with
    | some c =>
      { s1 with procConnected := some false,
                procDisconnectCount := s1.procDisconnectCount + (if c then 1 else 0) }
    | none => s1
  match closeCtxGuarded s2.inCtx with
  | Except.error e => Except.error e
  | Except.ok p =>
    let s3 := { s2 with inCtx := p.1, inCtxCloseCount := s2.inCtxCloseCount + p.2 }
    match closeCtxGuarded s3.outCtx with
    | Except.error e => Except.error e
    | Except.ok q =>
      let s4 := { s3 with outCtx := q.1, outCtxCloseCount := s3.outCtxCloseCount + q.2 }
      let s5 :=
        match s4.session with
        | some op =>
          { s4 with session := some false,
                    sessionCloseCount := s4.sessionCloseCount + (if op then 1 else 0) }
        | none => s4
      Except.ok { s5 with pendingClose := some (serializeTranscript s5.transcript, 1500) }

/-- The scripted apology of the `onopen` microphone catch block. -/
def micApology : String :=
  "It seems you\x27re having microphone issues. We can try this again later."

/-- The scripted apology of the `onerror` callback. -/
def sessionApology : String :=
  "I\x27m having connection issues. Let\x27s end this call and I\x27ll follow up via email."

/-- The scripted apology of the missing-API-key early return. -/
def noKeyApology : String :=
  "I\x27m sorry, my audio system isn\x27t working. Let\x27s reschedule."

/-- The fixed rejection string of the Decline button. -/
def rejectionLine : String := "Candidate rejected the call."

/-- The `catch` block of `onopen` (lines 106-110): append the apology and
arm the `endCall` timer with a 3000 ms delay.  No resource is touched. -/
def onMicError (s : LState) : LState :=
  { s with transcript := s.transcript ++ [⟨Author.client, micApology⟩],
           pendingEndDelayMs := some 3000 }

/-- The `onerror` callback (lines 145-149): append the apology and arm the
`endCall` timer with a 3000 ms delay.  No resource is touched. -/
def onSessionError (s : LState) : LState :=
  { s with transcript := s.transcript ++ [⟨Author.client, sessionApology⟩],
           pendingEndDelayMs := some 3000 }

/-- JS falsiness of `process.env.API_KEY`: undefined or the empty string. -/
def jsFalsy : Option String → Bool
  | none => true
  | some s => s = ""

/-- `startVoiceCall` (lines 46-55 and 82): on a falsy API key, append the
apology and arm the `endCall` timer (3000 ms) without changing status or
touching any resource; otherwise set status to connected and create the
session promise. -/
def startVoiceCall (apiKey : Option String) (s : LState) : LState :=
  if jsFalsy apiKey then
    { s with transcript := s.transcript ++ [⟨Author.client, noKeyApology⟩],
             pendingEndDelayMs := some 3000 }
  else
    { s with status := Status.connected, session := some true }

/-- The successful body of `onopen` (lines 87-104): microphone stream, both
audio contexts and the script processor are acquired. -/
def onOpenSuccess (s : LState) : LState :=
  { s with stream := some TrackState.live, inCtx := some CtxState.running,
           outCtx := some CtxState.running, procConnected := some true }

/-- The Decline button handler (line 186):
`onClose(rejection string)` with no other effect; yields the unchanged
state and the string handed to the caller. -/
def declineCall (s : LState) : LState × String :=
  (s, rejectionLine)

set_option maxHeartbeats 4000000 in
theorem endCall_spec (s : LState) :
    ∃ t, endCall s = Except.ok t
      ∧ t.status = Status.ended
      ∧ t.transcript = s.transcript
      ∧ t.pendingClose = some (serializeTranscript s.transcript, 1500)
      ∧ t.pendingEndDelayMs = s.pendingEndDelayMs
      ∧ t.micStopCount ≤ s.micStopCount + 1
      ∧ t.procDisconnectCount ≤ s.procDisconnectCount + 1
      ∧ t.inCtxCloseCount ≤ s.inCtxCloseCount + 1
      ∧ t.outCtxCloseCount ≤ s.outCtxCloseCount + 1
      ∧ t.sessionCloseCount ≤ s.sessionCloseCount + 1
      ∧ (s.stream = none → t.stream = none)
      ∧ (s.stream ≠ some TrackState.live → t.micStopCount = s.micStopCount)
      ∧ (t.stream = none ∨ t.stream = some TrackState.stopped)
      ∧ (s.procConnected ≠ some true → t.procDisconnectCount = s.procDisconnectCount)
      ∧ (t.procConnected = none ∨ t.procConnected = some false)
      ∧ (s.inCtx ≠ some CtxState.running → t.inCtxCloseCount = s.inCtxCloseCount)
      ∧ (t.inCtx = none ∨ t.inCtx = some CtxState.closed)
      ∧ (s.outCtx ≠ some CtxState.running → t.outCtxCloseCount = s.outCtxCloseCount)
      ∧ (t.outCtx = none ∨ t.outCtx = some CtxState.closed)
      ∧ (s.session = none → t.session = none)
      ∧ (s.session ≠ some true → t.sessionCloseCount = s.sessionCloseCount)
      ∧ (t.session = none ∨ t.session = some false) := by
  obtain ⟨st, ts, strm, pc, ic, oc, se, c1, c2, c3, c4, c5, pe, pcl⟩ := s
  rcases strm with _ | (_ | _) <;> rcases pc with _ | (_ | _) <;>
    rcases ic with _ | (_ | _) <;> rcases oc with _ | (_ | _) <;>
    rcases se with _ | (_ | _) <;>
    refine ⟨_, rfl, ?_⟩ <;> simp [stopTrack]

/-- Claim C6: each of the two failure handlers (microphone denial in the
`onopen` catch block, transport failure in `onerror`) appends exactly one
synthetic `Client` apology entry, arms the automatic `endCall` timer with
the fixed 3000 ms delay, touches no resource (no retry), and the armed
`endCall` then moves the call to the ended status without throwing. -/
theorem error_paths_single_apology (s : LState) :
    ((onMicError s).transcript = s.transcript ++ [⟨Author.client, micApology⟩]
      ∧ (onMicError s).pendingEndDelayMs = some 3000
      ∧ (onMicError s).status = s.status
      ∧ (onMicError s).stream = s.stream
      ∧ (onMicError s).session = s.session
      ∧ ∃ t, endCall (onMicError s) = Except.ok t ∧ t.status = Status.ended)
    ∧ ((onSessionError s).transcript = s.transcript ++ [⟨Author.client, sessionApology⟩]
      ∧ (onSessionError s).pendingEndDelayMs = some 3000
      ∧ (onSessionError s).status = s.status
      ∧ (onSessionError s).stream = s.stream
      ∧ (onSessionError s).session = s.session
      ∧ ∃ t, endCall (onSessionError s) = Except.ok t ∧ t.status = Status.ended) := by
  obtain ⟨t1, ht1, hs1, _⟩ := endCall_spec (onMicError s)
  obtain ⟨t2, ht2, hs2, _⟩ := endCall_spec (onSessionError s)
  exact ⟨⟨rfl, rfl, rfl, rfl, rfl, t1, ht1, hs1⟩,
         ⟨rfl, rfl, rfl, rfl, rfl, t2, ht2, hs2⟩⟩

/-- Claim C7: running `endCall` twice in a row from any state never throws,
and releases each resource (microphone tracks, processor node, each audio
context, session) at most once across both runs: the first run raises each
release counter by at most one and the second run raises none of them.  In
particular an audio context already closed on entry is not closed again. -/
theorem endCall_idempotent (s : LState) :
    ∃ t u, endCall s = Except.ok t ∧ endCall t = Except.ok u
      ∧ t.micStopCount ≤ s.micStopCount + 1
      ∧ u.micStopCount = t.micStopCount
      ∧ t.procDisconnectCount ≤ s.procDisconnectCount + 1
      ∧ u.procDisconnectCount = t.procDisconnectCount
      ∧ t.inCtxCloseCount ≤ s.inCtxCloseCount + 1
      ∧ u.inCtxCloseCount = t.inCtxCloseCount
      ∧ t.outCtxCloseCount ≤ s.outCtxCloseCount + 1
      ∧ u.outCtxCloseCount = t.outCtxCloseCount
      ∧ t.sessionCloseCount ≤ s.sessionCloseCount + 1
      ∧ u.sessionCloseCount = t.sessionCloseCount
      ∧ (s.inCtx = some CtxState.closed → t.inCtxCloseCount = s.inCtxCloseCount)
      ∧ (s.outCtx = some CtxState.closed → t.outCtxCloseCount = s.outCtxCloseCount) := by
  obtain ⟨t, ht, _, _, _, _, hm1, hp1, hi1, ho1, hse1, _, hmNo, hmSh,
          hpNo, hpSh, hiNo, hiSh, hoNo, hoSh, _, hseNo, hseSh⟩ := endCall_spec s
  obtain ⟨u, hu, _, _, _, _, _, _, _, _, _, _, humNo, _, hupNo, _,
          huiNo, _, huoNo, _, _, huseNo, _⟩ := endCall_spec t
  refine ⟨t, u, ht, hu, hm1, ?_, hp1, ?_, hi1, ?_, ho1, ?_, hse1, ?_, ?_, ?_⟩
  · exact humNo (by rcases hmSh with h | h <;> simp [h])
  · exact hupNo (by rcases hpSh with h | h <;> simp [h])
  · exact huiNo (by rcases hiSh with h | h <;> simp [h])
  · exact huoNo (by rcases hoSh with h | h <;> simp [h])
  · exact huseNo (by rcases hseSh with h | h <;> simp [h])
  · intro h
    exact hiNo (by simp [h])
  · intro h
    exact hoNo (by simp [h])

/-- Claim C8: with the modal in the ringing status (the only status that
renders the Decline button), declining hands the caller exactly the string
"Candidate rejected the call." and leaves the state untouched — in
particular no microphone stream and no session is acquired. -/
theorem decline_returns_rejection (s : LState) (h : s.status = Status.ringing) :
    (declineCall s).2 = "Candidate rejected the call."
      ∧ (declineCall s).1 = s
      ∧ (declineCall s).1.stream = s.stream
      ∧ (declineCall s).1.session = s.session :=
  ⟨rfl, rfl, rfl, rfl⟩

/-- Witness for C8 at the initial (mount) state: the rejection string is
returned and the state still holds no microphone stream and no session. -/
theorem decline_returns_rejection_witness :
    (declineCall initState).2 = "Candidate rejected the call."
      ∧ (declineCall initState).1 = initState
      ∧ (declineCall initState).1.stream = none
      ∧ (declineCall initState).1.session = none := by
  have h := decline_returns_rejection initState rfl
  exact ⟨h.1, h.2.1, h.2.2.1, h.2.2.2⟩

/-- Claim C9: the string `endCall` passes to the caller (through the
1500 ms `onClose` timer) is exactly the transcript entries rendered in
order as lines `<Speaker>: <text>` joined by newlines, and the rendered
speaker is exactly "Client" or "You" on every line. -/
theorem transcript_serialization (s : LState) :
    ∃ t, endCall s = Except.ok t
      ∧ t.pendingClose =
          some (String.intercalate "\n"
                  (s.transcript.map fun e => Author.tag e.author ++ ": " ++ e.text),
                1500)
      ∧ ∀ e ∈ s.transcript, Author.tag e.author = "Client" ∨ Author.tag e.author = "You" := by
  obtain ⟨t, ht, _, _, hpc, _⟩ := endCall_spec s
  refine ⟨t, ht, hpc, ?_⟩
  intro e _
  cases e.author
  · exact Or.inl rfl
  · exact Or.inr rfl

/-- Claim C10: when the API key is falsy at answer time, `startVoiceCall`
appends exactly one `Client` apology entry, opens no session and requests
no microphone, stays in the ringing status (never entering connected), and
arms the 3000 ms `endCall` timer; firing that timer ends the call with
still no session or microphone ever acquired and zero releases. -/
theorem missing_key_flow :
    (startVoiceCall none initState).status = Status.ringing
    ∧ (startVoiceCall none initState).transcript = [⟨Author.client, noKeyApology⟩]
    ∧ (startVoiceCall none initState).session = none
    ∧ (startVoiceCall none initState).stream = none
    ∧ (startVoiceCall none initState).pendingEndDelayMs = some 3000
    ∧ ∃ t, endCall (startVoiceCall none initState) = Except.ok t
        ∧ t.status = Status.ended ∧ t.session = none ∧ t.stream = none
        ∧ t.sessionCloseCount = 0 ∧ t.micStopCount = 0 := by
  obtain ⟨t, ht, hst, _, _, _, _, _, _, _, _, hstrNone, hmicNo, _, _, _, _, _, _, _,
          hseNone, hseNo, _⟩ := endCall_spec (startVoiceCall none initState)
  refine ⟨rfl, rfl, rfl, rfl, rfl, t, ht, hst, ?_, ?_, ?_, ?_⟩
  · exact hseNone rfl
  · exact hstrNone rfl
  · exact hseNo (by simp [startVoiceCall, jsFalsy, initState])
  · exact hmicNo (by simp [startVoiceCall, jsFalsy, initState])

end Simuhire
